import Mathlib

/-!
Verification of the GPX_3D terrain-aware flyover camera engine
(`FlyoverAnimation`, the animation module).

The animation module is embedded shallowly over exact rationals (ℚ):
IEEE doubles are modelled by ℚ, which is exact for every arithmetic
operation the verified claims depend on (`+`, `-`, `*`, `/`, `%`,
comparisons, `Math.max`/`Math.min`/`Math.floor`).  The transcendental
pieces of the source (the haversine segment distance, the spherical
bearing formula, the `atan2`-based weighted circular mean, and the
`Math.sqrt` inside the speed-dependent smoothing parameters) are kept
as explicit parameters of the embedded functions, constrained by the
range facts that hold of their floating-point originals; every claim
below quantifies over these parameters, so no theorem depends on a
particular trigonometric model.  External side effects (console, map
layers, the render surface, `performance.now`, `requestAnimationFrame`)
are outside the state; the state fields modelled are exactly the ones
the claims speak about.
-/

namespace GPX3D

/-- A GPX track point `{lat, lon, ele}` (degrees, degrees, meters). -/
structure TrackPoint where
  lat : ℚ
  lon : ℚ
  ele : ℚ
deriving DecidableEq, Repr

/-- `FlyoverAnimation` instance state: the fields of the JS class that the
verified claims are about (playback flags, progress, speed, the distance
index, and the four smoothing-state fields).  Fields holding external
resources (the map, marker ids, callbacks, `animationFrame`,
`lastTimestamp`) and the display-only settings (`mode`, `cameraAltitude`,
`cameraPitch`) are not modelled; none of the modelled operations read
them. -/
structure AnimState where
  isPlaying : Bool
  isPaused : Bool
  progress : ℚ
  speed : ℚ
  cumulativeDistances : Option (List ℚ)
  totalDistance : ℚ
  distanceDataInitialized : Bool
  lastCameraAltitude : Option ℚ
  lastBearing : Option ℚ
  bearingHistory : List ℚ
  lastSmoothedPosition : Option TrackPoint
deriving DecidableEq, Repr

/-- The constructor's field initialisation (`constructor`, lines 3–54). -/
def initialAnimState : AnimState where
  isPlaying := false
  isPaused := false
  progress := 0
  speed := 1
  cumulativeDistances := none
  totalDistance := 0
  distanceDataInitialized := false
  lastCameraAltitude := none
  lastBearing := none
  bearingHistory := []
  lastSmoothedPosition := none

/-- `this.altitudeSmoothingFactor = 0.05`. -/
def altitudeSmoothingFactor : ℚ := 1 / 20

/-- `this.minTerrainClearance = 80`. -/
def minTerrainClearance : ℚ := 80

/-- `this.terrainExaggeration = 1.5`. -/
def terrainExaggeration : ℚ := 3 / 2

/-! ## Distance index (`initializeDistanceData`, `findSegmentAtDistance`) -/

/-- The body of the `initializeDistanceData` loop: the cumulative
distances pushed after the leading `0`, starting from running total
`total` with previous point `prev`.  `dist` is the (haversine)
`calculateDistance`, kept as a parameter because it is transcendental;
the claims about the distance index hold for every nonnegative distance
function. -/
def cumulAppend (dist : TrackPoint → TrackPoint → ℚ) (prev : TrackPoint) :
    List TrackPoint → ℚ → List ℚ
  | [], _ => []
  | p :: ps, total => (total + dist prev p) :: cumulAppend dist p ps (total + dist prev p)

/-- The `cumulativeDistances` array built by `initializeDistanceData`:
`[0]` followed by the running totals. -/
def cumulativeDistancesOf (dist : TrackPoint → TrackPoint → ℚ)
    (points : List TrackPoint) : List ℚ :=
  match points with
  | [] => []
  | p :: rest => 0 :: cumulAppend dist p rest 0

/-- The running sum of segment distances from `prev` through `rest`
(associated to the right; the JS accumulates the same additions into
`this.totalDistance`, and ℚ addition is associative). -/
def sumFrom (dist : TrackPoint → TrackPoint → ℚ) (prev : TrackPoint) :
    List TrackPoint → ℚ
  | [] => 0
  | p :: ps => dist prev p + sumFrom dist p ps

/-- The final value of `this.totalDistance` set by `initializeDistanceData`. -/
def totalDistanceOf (dist : TrackPoint → TrackPoint → ℚ)
    (points : List TrackPoint) : ℚ :=
  match points with
  | [] => 0
  | p :: rest => sumFrom dist p rest

/-- `initializeDistanceData()` (lines 73–91) as a state transformer.
With fewer than 2 points it only clears the `distanceDataInitialized`
flag and returns; otherwise it stores the cumulative-distance array and
the total distance. -/
def initializeDistanceData (dist : TrackPoint → TrackPoint → ℚ)
    (points : List TrackPoint) (s : AnimState) : AnimState :=
  if points.length < 2 then { s with distanceDataInitialized := false }
  else
    { s with
      cumulativeDistances := some (cumulativeDistancesOf dist points)
      totalDistance := totalDistanceOf dist points
      distanceDataInitialized := true }

/-- The `while (left < right - 1)` binary-search loop of
`findSegmentAtDistance` (lines 99–106).  `D.getD mid 0` is the JS
`distances[mid]` (the loop only probes in-bounds indices). -/
def findSegLoop (D : List ℚ) (target : ℚ) (left right : ℕ) : ℕ :=
  if _h : left + 1 < right then
    let mid := (left + right) / 2
    if D.getD mid 0 ≤ target then findSegLoop D target mid right
    else findSegLoop D target left mid
  else left
termination_by right - left
decreasing_by
  · omega
  · omega

/-- `findSegmentAtDistance(targetDistance)` (lines 94–109) over the
stored `cumulativeDistances` array `D`. -/
def findSegmentAtDistance (D : List ℚ) (target : ℚ) : ℕ :=
  findSegLoop D target 0 (D.length - 1)

/-! ## Interpolation and the raw track sample (`getPointAtProgress`) -/

/-- `interpolate(point1, point2, t)` (lines 137–143). -/
def interpolate (p1 p2 : TrackPoint) (t : ℚ) : TrackPoint where
  lat := p1.lat + (p2.lat - p1.lat) * t
  lon := p1.lon + (p2.lon - p1.lon) * t
  ele := p1.ele + (p2.ele - p1.ele) * t

/-- The raw sample produced by `getPointAtProgress`: the on-track
interpolated position and the segment index. -/
structure RawSample where
  pos : TrackPoint
  index : ℕ
deriving DecidableEq, Repr

/-- The position pipeline of `getPointAtProgress(progress)`
(lines 245–276): guard, lazy distance-index initialisation, the clamp
`progress = Math.max(0, Math.min(1, progress))`, conversion to a target
distance, binary-search segment lookup, and linear interpolation within
the segment, yielding `rawPos` and `segmentIndex`.  The subsequent
bearing/smoothing pipeline (lines 278–311) is driven by the
transcendental bearing formulas and is modelled by the smoother
functions below; it does not affect the raw sample or `this.progress`. -/
def getPointAtProgressRaw (dist : TrackPoint → TrackPoint → ℚ)
    (points : List TrackPoint) (s : AnimState) (progress : ℚ) :
    Option RawSample :=
  if points.length < 2 then none
  else
    let s1 := if s.distanceDataInitialized then s else initializeDistanceData dist points s
    let prog := max 0 (min 1 progress)
    let targetDistance := prog * s1.totalDistance
    let D := s1.cumulativeDistances.getD []
    let segmentIndex := findSegmentAtDistance D targetDistance
    match points[segmentIndex]?, points[min (segmentIndex + 1) (points.length - 1)]? with
    | some p1, some p2 =>
      let segmentStartDist := D.getD segmentIndex 0
      let segmentEndDist := D.getD (min (segmentIndex + 1) (D.length - 1)) 0
      let segmentLength := segmentEndDist - segmentStartDist
      let t := if 0 < segmentLength then (targetDistance - segmentStartDist) / segmentLength else 0
      some ⟨interpolate p1 p2 t, segmentIndex⟩
    | _, _ => none

/-! ## Signal smoothers -/

/-- `smoothAltitude(targetAltitude)` (lines 461–480), as a function of
the stored `this.lastCameraAltitude` returning the smoothed altitude and
the updated stored value.  Asymmetric: instant rise, slow (factor 0.05)
descent; a `null` state seeds itself with the input. -/
def smoothAltitude (last : Option ℚ) (targetAltitude : ℚ) : ℚ × Option ℚ :=
  match last with
  | none => (targetAltitude, some targetAltitude)
  | some l =>
    if l < targetAltitude then (targetAltitude, some targetAltitude)
    else
      let v := l + (targetAltitude - l) * altitudeSmoothingFactor
      (v, some v)

/-- `smoothPosition(newPosition)` (lines 221–242), with the
speed-dependent factor `max(0.04, 0.15/sqrt(max(1,speed)))` abstracted
as the parameter `factor` (it involves `Math.sqrt`). -/
def smoothPosition (factor : ℚ) (last : Option TrackPoint) (newPosition : TrackPoint) :
    TrackPoint × Option TrackPoint :=
  match last with
  | none => (newPosition, some newPosition)
  | some lp =>
    let lp' : TrackPoint :=
      ⟨lp.lat + (newPosition.lat - lp.lat) * factor,
       lp.lon + (newPosition.lon - lp.lon) * factor,
       lp.ele + (newPosition.ele - lp.ele) * factor⟩
    (lp', some lp')

/-- JS `Math.trunc`-style integer part: the `%` remainder operator on JS
numbers truncates the quotient toward zero. -/
def qtrunc (x : ℚ) : ℤ :=
  if 0 ≤ x then ⌊x⌋ else ⌈x⌉

/-- The JS remainder `a % b` (sign of the dividend). -/
def jsMod (a b : ℚ) : ℚ :=
  a - b * (qtrunc (a / b) : ℚ)

/-- `normalizeBearing(bearing)` (lines 151–153):
`((bearing % 360) + 360) % 360`. -/
def normalizeBearing (bearing : ℚ) : ℚ :=
  jsMod (jsMod bearing 360 + 360) 360

/-- `bearingDifference(b1, b2)` (lines 156–160): the shortest angular
difference, in `(-180, 180]`. -/
def bearingDifference (b1 b2 : ℚ) : ℚ :=
  let d := normalizeBearing (b2 - b1)
  if 180 < d then d - 360 else d

/-- The `while (this.bearingHistory.length > dynamicHistorySize)
this.bearingHistory.shift()` trimming loop in `smoothBearing`. -/
def trimHistory (size : ℕ) (l : List ℚ) : List ℚ :=
  if size < l.length then trimHistory size l.tail else l
termination_by l.length
decreasing_by
  simp only [List.length_tail]
  omega

/-- `smoothBearing(newBearing)` (lines 164–217) as a function of the
stored `this.lastBearing` / `this.bearingHistory`, returning the
smoothed bearing together with the updated state.  Two source
subexpressions are transcendental and appear as parameters:
`factor` is `dynamicSmoothingFactor = max(0.015, 0.06/sqrt(max(1,speed)))`
(which lies in `[0.015, 0.06]` for every speed ≥ 0), `histSize` is
`dynamicHistorySize = min(60, floor(20*sqrt(max(1,speed))))`, and
`circMean hist` is the recency-weighted circular mean
`atan2(sinSum, cosSum) * 180/π` of lines 189–209.  The code then
normalises that mean and takes one exponential step of size `factor`
toward it in shortest-angular-difference arithmetic. -/
def smoothBearing (factor : ℚ) (histSize : ℕ) (circMean : List ℚ → ℚ)
    (lastBearing : Option ℚ) (bearingHistory : List ℚ) (newBearing : ℚ) :
    ℚ × Option ℚ × List ℚ :=
  match lastBearing with
  | none => (newBearing, some newBearing, [newBearing])
  | some lb =>
    let hist := trimHistory histSize (bearingHistory ++ [newBearing])
    let normalizedAvg := normalizeBearing (circMean hist)
    let diff := bearingDifference lb normalizedAvg
    let newLast := normalizeBearing (lb + diff * factor)
    (newLast, some newLast, hist)

/-! ## Terrain queries and line-of-sight clearance -/

/-- The outcome of the external `map.queryTerrainElevation([lon, lat])`
call: a value (possibly `null`), or a thrown exception. -/
inductive QueryResult where
  | ok (elevation : Option ℚ)
  | threw
deriving DecidableEq, Repr

/-- `queryTerrainElevation(lon, lat, fallbackElevation)` (lines
370–385) as a function of the external query's outcome `q` (the lon/lat
pair only selects that outcome).  `mapPresent` is whether `this.map.map`
is non-null; `fallback.getD 0` is the JS `fallbackElevation || 0`
(`null` and `0` are both falsy, and a nonzero fallback is returned
as-is, so the value coincides for every rational fallback). -/
def queryTerrainElevation (mapPresent : Bool) (q : QueryResult)
    (fallbackElevation : Option ℚ) : ℚ :=
  if !mapPresent then fallbackElevation.getD 0
  else
    match q with
    | .threw => fallbackElevation.getD 0
    | .ok none => fallbackElevation.getD 0
    | .ok (some elevation) =>
      if 0 < elevation then elevation * terrainExaggeration
      else fallbackElevation.getD 0

/-- The per-sample required camera altitude inside
`calculateLineOfSightClearance` (lines 431–454), at sample `i` of
`numSamples`.  `terrainAt lon lat` is the composite
`queryTerrainElevation(lon, lat, getTrackElevationNear(lon, lat))`
of lines 442–443, kept as a parameter (its value at each probed point
is what the claim quantifies over). -/
def requiredCamAltAt (terrainAt : ℚ → ℚ → ℚ)
    (cameraLon cameraLat lookAtLon lookAtLat lookAtAlt : ℚ)
    (numSamples i : ℕ) : ℚ :=
  let t : ℚ := (i : ℚ) / (numSamples : ℚ)
  let lon := cameraLon + (lookAtLon - cameraLon) * t
  let lat := cameraLat + (lookAtLat - cameraLat) * t
  (terrainAt lon lat + minTerrainClearance - lookAtAlt * t) / (1 - t)

/-- `calculateLineOfSightClearance(cameraLon, cameraLat, lookAtLon,
lookAtLat, lookAtAlt, numSamples)` (lines 427–458): fold over
`i = 0..numSamples`, skipping samples with `t ≥ 0.98`, accumulating
`minRequiredCamAlt = Math.max(minRequiredCamAlt, requiredCamAlt)`
starting from `minRequiredCamAlt = 0`. -/
def calculateLineOfSightClearance (terrainAt : ℚ → ℚ → ℚ)
    (cameraLon cameraLat lookAtLon lookAtLat lookAtAlt : ℚ)
    (numSamples : ℕ) : ℚ :=
  (List.range (numSamples + 1)).foldl
    (fun acc (i : ℕ) =>
      if (98 : ℚ) / 100 ≤ (i : ℚ) / (numSamples : ℚ) then acc
      else
        max acc
          (requiredCamAltAt terrainAt cameraLon cameraLat lookAtLon lookAtLat
            lookAtAlt numSamples i))
    0

/-- The sample parameters the specification's formula ranges over:
`i = 0..N` with `t = i/N < 0.98`. -/
def losSampleParams (numSamples : ℕ) : List ℕ :=
  (List.range (numSamples + 1)).filter
    (fun i => decide ((i : ℚ) / (numSamples : ℚ) < 98 / 100))

/-- Modelled from the spec's words (for refinement comparison with
`calculateLineOfSightClearance`): "the maximum, over sample parameters
t = i/N for i = 0..N with t < 0.98, of
(terrainAlt(t) + clearanceMargin − lookAtAlt·t)/(1 − t)".  The list of
sample parameters is nonempty whenever `1 ≤ N` (it contains `i = 0`),
and the fold is seeded with that first sample, so this is the plain
maximum over the samples. -/
def losClaimedMax (terrainAt : ℚ → ℚ → ℚ)
    (cameraLon cameraLat lookAtLon lookAtLat lookAtAlt : ℚ)
    (numSamples : ℕ) : ℚ :=
  ((losSampleParams numSamples).map
      (requiredCamAltAt terrainAt cameraLon cameraLat lookAtLon lookAtLat
        lookAtAlt numSamples)).foldl
    max
    (requiredCamAltAt terrainAt cameraLon cameraLat lookAtLon lookAtLat
      lookAtAlt numSamples 0)

/-! ## Playback controller -/

/-- The failure mode of `start()` on a short track: the source reports
it by `console.error('Not enough track points for animation')`
(line 620) and returns without changing any state. -/
inductive StartError where
  | insufficientTrackData
deriving DecidableEq, Repr

/-- `start()` (lines 615–642) as a state transformer, also returning
the reported error, if any.  External effects (`initProgressMarker`,
`performance.now` into `lastTimestamp`, and the `animate()` kick-off,
whose per-frame pipeline is modelled by the samplers/smoothers above)
are outside the state. -/
def start (dist : TrackPoint → TrackPoint → ℚ) (points : List TrackPoint)
    (s : AnimState) : AnimState × Option StartError :=
  if s.isPlaying then (s, none)
  else if points.length < 2 then (s, some .insufficientTrackData)
  else
    let s1 := initializeDistanceData dist points s
    ({ s1 with
        lastCameraAltitude := none
        lastBearing := none
        bearingHistory := []
        lastSmoothedPosition := none
        isPlaying := true
        isPaused := false
        progress := 0 },
      none)

/-- `stepToProgress(progress)` (lines 735–751): lazy distance-index
initialisation, the smoothing reset when `progress === 0 || progress <
this.progress`, then `this.progress = progress` — stored directly,
without clamping.  The rest of the function (lines 752–761) emits the
frame through `getPointAtProgress`/`getCameraPosition` (modelled by the
sampler and smoother functions above) and external marker/repaint
calls; it does not write `this.progress` again. -/
def stepToProgress (dist : TrackPoint → TrackPoint → ℚ)
    (points : List TrackPoint) (s : AnimState) (progress : ℚ) : AnimState :=
  let s1 := if s.distanceDataInitialized then s else initializeDistanceData dist points s
  let s2 :=
    if progress = 0 ∨ progress < s.progress then
      { s1 with
        lastCameraAltitude := none
        lastBearing := none
        bearingHistory := []
        lastSmoothedPosition := none }
    else s1
  { s2 with progress := progress }

/-- `getTotalDuration()` (lines 764–774). -/
def getTotalDuration (dist : TrackPoint → TrackPoint → ℚ)
    (points : List TrackPoint) (s : AnimState) : ℚ :=
  let s1 := if s.distanceDataInitialized then s else initializeDistanceData dist points s
  if 0 < s1.totalDistance then s1.totalDistance / (160 * s.speed) else 160

/-! ## Helper lemmas -/

/-- Clamping to `[0,1]` is idempotent. -/
theorem clamp_idem (p : ℚ) :
    max 0 (min 1 (max 0 (min 1 p))) = max 0 (min 1 p) := by
  have h0 : (0 : ℚ) ≤ max 0 (min 1 p) := le_max_left _ _
  have h1 : max (0 : ℚ) (min 1 p) ≤ 1 := max_le (by norm_num) (min_le_left _ _)
  rw [min_eq_right h1, max_eq_right h0]

/-! ## C1: asymmetric altitude smoothing -/

/-- C1: altitude smoothing is asymmetric.  After the first call, a
strictly greater required altitude is returned exactly (instant rise);
a lower-or-equal one yields `lastAltitude + 0.05 * (target -
lastAltitude)` (slow descent); the first call after a reset returns its
input unchanged and seeds the stored state. -/
theorem smoothAltitude_asymmetric (l t : ℚ) :
    smoothAltitude none t = (t, some t) ∧
    (l < t → smoothAltitude (some l) t = (t, some t)) ∧
    (t ≤ l →
      smoothAltitude (some l) t
        = (l + 5 / 100 * (t - l), some (l + 5 / 100 * (t - l)))) := by
  refine ⟨rfl, fun h => ?_, fun h => ?_⟩
  · simp [smoothAltitude, h]
  · simp only [smoothAltitude, altitudeSmoothingFactor, if_neg (not_lt.mpr h)]
    have hv : l + (t - l) * (1 / 20) = l + 5 / 100 * (t - l) := by ring
    rw [hv]

/-- Witness for C1 at concrete inputs. -/
theorem smoothAltitude_asymmetric_witness :
    ((5 : ℚ) < 10 ∧ smoothAltitude (some (5 : ℚ)) 10 = (10, some 10)) ∧
    ((5 : ℚ) ≤ 10 ∧ smoothAltitude (some (10 : ℚ)) 5
        = (10 + 5 / 100 * (5 - 10), some (10 + 5 / 100 * (5 - 10)))) :=
  ⟨⟨by norm_num, (smoothAltitude_asymmetric 5 10).2.1 (by norm_num)⟩,
   ⟨by norm_num, (smoothAltitude_asymmetric 10 5).2.2 (by norm_num)⟩⟩

/-! ## C9: terrain-query fallback behaviour -/

/-- C9: `queryTerrainElevation` treats a `null` result, a result ≤ 0,
and a thrown exception as unavailable, returning the fallback elevation
(or 0 when none is given); only strictly positive results are used, and
they are multiplied by the terrain exaggeration 1.5; no map at all also
yields the fallback. -/
theorem queryTerrainElevation_fallback (mp : Bool) (q : QueryResult)
    (fb : Option ℚ) (e : ℚ) :
    queryTerrainElevation mp .threw fb = fb.getD 0 ∧
    queryTerrainElevation mp (.ok none) fb = fb.getD 0 ∧
    (e ≤ 0 → queryTerrainElevation mp (.ok (some e)) fb = fb.getD 0) ∧
    (0 < e → queryTerrainElevation true (.ok (some e)) fb = e * (3 / 2)) ∧
    queryTerrainElevation false q fb = fb.getD 0 := by
  refine ⟨?_, ?_, fun h => ?_, fun h => ?_, ?_⟩
  · cases mp <;> rfl
  · cases mp <;> rfl
  · cases mp
    · rfl
    · simp [queryTerrainElevation, not_lt.mpr h]
  · simp [queryTerrainElevation, h, terrainExaggeration]
  · rfl

/-- Witness for C9 at concrete inputs. -/
theorem queryTerrainElevation_fallback_witness :
    ((-3 : ℚ) ≤ 0 ∧
      queryTerrainElevation true (.ok (some (-3))) (some 42) = (some (42 : ℚ)).getD 0) ∧
    ((0 : ℚ) < 4 ∧
      queryTerrainElevation true (.ok (some 4)) (some 42) = (4 : ℚ) * (3 / 2)) :=
  ⟨⟨by norm_num, (queryTerrainElevation_fallback true (.ok (some (-3))) (some 42) (-3)).2.2.1 (by norm_num)⟩,
   ⟨by norm_num, (queryTerrainElevation_fallback true (.ok (some 4)) (some 42) 4).2.2.2.1 (by norm_num)⟩⟩

/-! ## C10: total duration -/

/-- C10: `getTotalDuration()` returns `totalDistance / (160 * speed)`
when `totalDistance > 0`, and the constant 160 (not 0) for a degenerate
track whose total distance is 0, e.g. two coincident points. -/
theorem getTotalDuration_spec (dist : TrackPoint → TrackPoint → ℚ)
    (points : List TrackPoint) (s : AnimState) (p : TrackPoint)
    (hinit : s.distanceDataInitialized = true) (hpp : dist p p = 0) :
    (0 < s.totalDistance →
      getTotalDuration dist points s = s.totalDistance / (160 * s.speed)) ∧
    (s.totalDistance = 0 → getTotalDuration dist points s = 160) ∧
    getTotalDuration dist [p, p] initialAnimState = 160 := by
  refine ⟨fun h => ?_, fun h => ?_, ?_⟩
  · simp [getTotalDuration, hinit, h]
  · simp [getTotalDuration, hinit, h]
  · simp [getTotalDuration, initialAnimState, initializeDistanceData,
      totalDistanceOf, sumFrom, hpp]

/-- Witness for C10 at concrete inputs. -/
theorem getTotalDuration_spec_witness :
    ((0 : ℚ) < 320 ∧
      getTotalDuration (fun _ _ => 0) []
        { initialAnimState with distanceDataInitialized := true, totalDistance := 320 }
        = 320 / (160 * 1)) ∧
    getTotalDuration (fun _ _ => (0 : ℚ)) [⟨0, 0, 0⟩, ⟨0, 0, 0⟩] initialAnimState = 160 :=
  ⟨⟨by norm_num,
    (getTotalDuration_spec (fun _ _ => 0) []
      { initialAnimState with distanceDataInitialized := true, totalDistance := 320 }
      ⟨0, 0, 0⟩ rfl rfl).1 (by norm_num)⟩,
   (getTotalDuration_spec (fun _ _ => 0) []
     { initialAnimState with distanceDataInitialized := true, totalDistance := 320 }
     ⟨0, 0, 0⟩ rfl rfl).2.2⟩

/-! ## C7: start() with insufficient track points -/

/-- C7: `start()` on a track with fewer than 2 points (from a
non-playing state) fails fast, reports the insufficient-track-data
error, and changes no state at all. -/
theorem start_insufficient_points (dist : TrackPoint → TrackPoint → ℚ)
    (points : List TrackPoint) (s : AnimState)
    (h1 : points.length < 2) (h2 : s.isPlaying = false) :
    start dist points s = (s, some .insufficientTrackData) := by
  simp [start, h1, h2]

/-- Witness for C7 at concrete inputs. -/
theorem start_insufficient_points_witness :
    ([(⟨0, 0, 0⟩ : TrackPoint)].length < 2 ∧
      initialAnimState.isPlaying = false) ∧
    start (fun _ _ => 1) [(⟨0, 0, 0⟩ : TrackPoint)] initialAnimState
      = (initialAnimState, some .insufficientTrackData) :=
  ⟨⟨by norm_num, rfl⟩,
   start_insufficient_points (fun _ _ => 1) [⟨0, 0, 0⟩] initialAnimState
     (by norm_num) rfl⟩

/-! ## C6: idempotent restart -/

/-- C6: calling `start()` twice in a row yields the same controller
state as calling it once (the second call is a no-op on an
already-playing instance), and a successful start resets progress to 0
and clears all four smoothing-state fields. -/
theorem start_idempotent (dist : TrackPoint → TrackPoint → ℚ)
    (points : List TrackPoint) (s : AnimState) :
    (start dist points (start dist points s).1).1 = (start dist points s).1 ∧
    (2 ≤ points.length → s.isPlaying = false →
      (start dist points s).1.progress = 0 ∧
      (start dist points s).1.lastCameraAltitude = none ∧
      (start dist points s).1.lastBearing = none ∧
      (start dist points s).1.bearingHistory = [] ∧
      (start dist points s).1.lastSmoothedPosition = none) := by
  constructor
  · by_cases hp : s.isPlaying
    · simp [start, hp]
    · by_cases hl : points.length < 2
      · simp [start, hp, hl]
      · simp [start, hp, hl]
  · intro hlen hp
    simp [start, hp, Nat.not_lt.mpr hlen]

/-- Witness for C6 at concrete inputs. -/
theorem start_idempotent_witness :
    (2 ≤ [(⟨0, 0, 0⟩ : TrackPoint), ⟨1, 0, 0⟩].length ∧
      initialAnimState.isPlaying = false) ∧
    ((start (fun _ _ => 1) [(⟨0, 0, 0⟩ : TrackPoint), ⟨1, 0, 0⟩] initialAnimState).1.progress = 0 ∧
      (start (fun _ _ => 1) [(⟨0, 0, 0⟩ : TrackPoint), ⟨1, 0, 0⟩] initialAnimState).1.lastCameraAltitude = none ∧
      (start (fun _ _ => 1) [(⟨0, 0, 0⟩ : TrackPoint), ⟨1, 0, 0⟩] initialAnimState).1.lastBearing = none ∧
      (start (fun _ _ => 1) [(⟨0, 0, 0⟩ : TrackPoint), ⟨1, 0, 0⟩] initialAnimState).1.bearingHistory = [] ∧
      (start (fun _ _ => 1) [(⟨0, 0, 0⟩ : TrackPoint), ⟨1, 0, 0⟩] initialAnimState).1.lastSmoothedPosition = none) :=
  ⟨⟨by norm_num, rfl⟩,
   (start_idempotent (fun _ _ => 1) [⟨0, 0, 0⟩, ⟨1, 0, 0⟩] initialAnimState).2
     (by norm_num) rfl⟩

/-! ## C5: stepToProgress smoothing reset -/

/-- C5: `stepToProgress(p)` stores `p` as the progress, and whenever
`p == 0` or `p` is below the previously stored progress it performs the
same smoothing reset as `start()` — `lastCameraAltitude`, `lastBearing`
and `lastSmoothedPosition` become `null` and `bearingHistory` is
emptied — so the next smoothed altitude/bearing/position computation
starts from scratch (each smoother returns its input unchanged from the
cleared state). -/
theorem stepToProgress_reset (dist : TrackPoint → TrackPoint → ℚ)
    (points : List TrackPoint) (s : AnimState) (p t f nb : ℚ)
    (hs : ℕ) (cm : List ℚ → ℚ) (np : TrackPoint)
    (h : p = 0 ∨ p < s.progress) :
    (stepToProgress dist points s p).progress = p ∧
    (stepToProgress dist points s p).lastCameraAltitude = none ∧
    (stepToProgress dist points s p).lastBearing = none ∧
    (stepToProgress dist points s p).bearingHistory = [] ∧
    (stepToProgress dist points s p).lastSmoothedPosition = none ∧
    (smoothAltitude (stepToProgress dist points s p).lastCameraAltitude t).1 = t ∧
    (smoothBearing f hs cm (stepToProgress dist points s p).lastBearing
        (stepToProgress dist points s p).bearingHistory nb).1 = nb ∧
    (smoothPosition f (stepToProgress dist points s p).lastSmoothedPosition np).1 = np := by
  simp only [stepToProgress, if_pos h]
  simp [smoothAltitude, smoothBearing, smoothPosition]

/-- Witness for C5 at concrete inputs. -/
theorem stepToProgress_reset_witness :
    ((0 : ℚ) = 0 ∨ (0 : ℚ) < initialAnimState.progress) ∧
    ((stepToProgress (fun _ _ => 1) [(⟨0, 0, 0⟩ : TrackPoint), ⟨1, 0, 0⟩] initialAnimState 0).progress = 0 ∧
      (stepToProgress (fun _ _ => 1) [(⟨0, 0, 0⟩ : TrackPoint), ⟨1, 0, 0⟩] initialAnimState 0).lastCameraAltitude = none ∧
      (stepToProgress (fun _ _ => 1) [(⟨0, 0, 0⟩ : TrackPoint), ⟨1, 0, 0⟩] initialAnimState 0).lastBearing = none ∧
      (stepToProgress (fun _ _ => 1) [(⟨0, 0, 0⟩ : TrackPoint), ⟨1, 0, 0⟩] initialAnimState 0).bearingHistory = [] ∧
      (stepToProgress (fun _ _ => 1) [(⟨0, 0, 0⟩ : TrackPoint), ⟨1, 0, 0⟩] initialAnimState 0).lastSmoothedPosition = none ∧
      (smoothAltitude (stepToProgress (fun _ _ => 1) [(⟨0, 0, 0⟩ : TrackPoint), ⟨1, 0, 0⟩] initialAnimState 0).lastCameraAltitude 7).1 = 7 ∧
      (smoothBearing (1 / 10) 20 (fun _ => 0)
          (stepToProgress (fun _ _ => 1) [(⟨0, 0, 0⟩ : TrackPoint), ⟨1, 0, 0⟩] initialAnimState 0).lastBearing
          (stepToProgress (fun _ _ => 1) [(⟨0, 0, 0⟩ : TrackPoint), ⟨1, 0, 0⟩] initialAnimState 0).bearingHistory 42).1 = 42 ∧
      (smoothPosition (1 / 10)
          (stepToProgress (fun _ _ => 1) [(⟨0, 0, 0⟩ : TrackPoint), ⟨1, 0, 0⟩] initialAnimState 0).lastSmoothedPosition
          ⟨1, 2, 3⟩).1 = (⟨1, 2, 3⟩ : TrackPoint)) :=
  ⟨Or.inl rfl,
   stepToProgress_reset (fun _ _ => 1) [⟨0, 0, 0⟩, ⟨1, 0, 0⟩] initialAnimState
     0 7 (1 / 10) 42 20 (fun _ => 0) ⟨1, 2, 3⟩ (Or.inl rfl)⟩

/-! ## C4: progress clamping (corrected) -/

/-- C4 counterexample: the claim that after every operation the stored
progress lies in `[0,1]` is false — `stepToProgress(1.5)` stores 1.5
unclamped. -/
theorem stepToProgress_no_clamp_counterexample :
    (stepToProgress (fun _ _ => 1) [(⟨0, 0, 0⟩ : TrackPoint), ⟨1, 0, 0⟩]
        initialAnimState (3 / 2)).progress = 3 / 2 ∧
    ¬ ((stepToProgress (fun _ _ => 1) [(⟨0, 0, 0⟩ : TrackPoint), ⟨1, 0, 0⟩]
        initialAnimState (3 / 2)).progress ≤ 1) := by
  constructor
  · rfl
  · show ¬ ((3 : ℚ) / 2 ≤ 1)
    norm_num

/-- C4 (amended): `getPointAtProgress` clamps its progress argument to
`[0,1]` — an out-of-range argument yields the same result as the
clamped value — and does not write the stored progress; but
`stepToProgress` stores its argument unclamped, so the stored progress
equals the argument even outside `[0,1]`. -/
theorem progress_clamp_amended (dist : TrackPoint → TrackPoint → ℚ)
    (points : List TrackPoint) (s : AnimState) (p : ℚ) :
    getPointAtProgressRaw dist points s p
      = getPointAtProgressRaw dist points s (max 0 (min 1 p)) ∧
    (stepToProgress dist points s p).progress = p := by
  constructor
  · simp only [getPointAtProgressRaw, clamp_idem]
  · rfl

/-! ## C2: line-of-sight clearance (corrected) -/

/-- Folding `max` from `max a b` pulls `a` out of the fold. -/
theorem foldl_max_max (l : List ℚ) : ∀ a b : ℚ,
    l.foldl max (max a b) = max a (l.foldl max b) := by
  induction l with
  | nil => intro a b; rfl
  | cons c t ih =>
    intro a b
    simp only [List.foldl_cons]
    rw [max_assoc, ih]

/-- A conditional-skip `max` fold is the `max` fold over the filtered,
mapped list. -/
theorem foldl_skip_eq_filter_map (p : ℕ → Prop) [DecidablePred p] (f : ℕ → ℚ) :
    ∀ (l : List ℕ) (a : ℚ),
      l.foldl (fun acc i => if p i then acc else max acc (f i)) a
        = ((l.filter (fun i => decide (¬ p i))).map f).foldl max a := by
  intro l
  induction l with
  | nil => intro a; rfl
  | cons c t ih =>
    intro a
    by_cases hc : p c
    · rw [List.foldl_cons, if_pos hc, List.filter_cons,
        if_neg (by simpa using hc)]
      exact ih a
    · rw [List.foldl_cons, if_neg hc, List.filter_cons,
        if_pos (by simpa using hc), List.map_cons, List.foldl_cons]
      exact ih (max a (f c))

/-- The t = 0 sample is always kept, so the spec's sample-parameter list
starts with 0. -/
theorem losSampleParams_cons (N : ℕ) :
    losSampleParams N
      = 0 :: (List.map Nat.succ (List.range N)).filter
          (fun (i : ℕ) => decide ((i : ℚ) / (N : ℚ) < 98 / 100)) := by
  unfold losSampleParams
  rw [List.range_succ_eq_map]
  rw [List.filter_cons]
  norm_num

/-- C2 counterexample: `calculateLineOfSightClearance` starts its `max`
accumulation at 0, so when every sample's required altitude is negative
(deep below-sea-level terrain) it returns 0, not the claimed maximum
over the samples (−120 here). -/
theorem calculateLineOfSightClearance_counterexample :
    calculateLineOfSightClearance (fun _ _ => (-200 : ℚ)) 0 0 0 1 0 2 = 0 ∧
    losClaimedMax (fun _ _ => (-200 : ℚ)) 0 0 0 1 0 2 = -120 ∧
    (0 : ℚ) ≠ -120 := by
  refine ⟨?_, ?_, by norm_num⟩
  · norm_num [calculateLineOfSightClearance, requiredCamAltAt, List.range_succ,
      List.foldl_append, List.foldl_cons, List.foldl_nil, max_def,
      minTerrainClearance]
  · norm_num [losClaimedMax, losSampleParams, requiredCamAltAt, List.range_succ,
      List.filter_append, List.filter_cons, List.filter_nil, List.map_append,
      List.map_cons, List.map_nil, List.foldl_append, List.foldl_cons,
      List.foldl_nil, max_def, minTerrainClearance]

/-- A constant terrain profile makes the clearance result independent of
the endpoint coordinates. -/
theorem calculateLineOfSightClearance_const (cv a b c d alt : ℚ) (N : ℕ) :
    calculateLineOfSightClearance (fun _ _ => cv) a b c d alt N
      = calculateLineOfSightClearance (fun _ _ => cv) 0 0 0 0 alt N := by
  unfold calculateLineOfSightClearance
  apply List.foldl_ext
  intro acc i _
  simp [requiredCamAltAt]

/-- C2 (amended): for `N ≥ 1`, `calculateLineOfSightClearance` returns
the maximum of 0 and the maximum over sample parameters `t = i/N`,
`i = 0..N` with `t < 0.98`, of
`(terrainAlt(t) + 80 − lookAtAlt·t)/(1 − t)`; in particular for a flat
terrain profile of constant elevation 0 with `lookAtAlt = 5` and the 30
samples used by the camera composer, the returned required camera
altitude is at least 85. -/
theorem calculateLineOfSightClearance_amended (terr : ℚ → ℚ → ℚ)
    (a b c d alt : ℚ) (N : ℕ) (hN : 1 ≤ N) :
    calculateLineOfSightClearance terr a b c d alt N
      = max 0 (losClaimedMax terr a b c d alt N) ∧
    85 ≤ calculateLineOfSightClearance (fun _ _ => 0) a b c d 5 30 := by
  constructor
  · unfold calculateLineOfSightClearance losClaimedMax
    rw [foldl_skip_eq_filter_map
      (fun i => (98 : ℚ) / 100 ≤ (i : ℚ) / (N : ℚ))
      (requiredCamAltAt terr a b c d alt N) (List.range (N + 1)) 0]
    have hfil :
        (List.range (N + 1)).filter
            (fun (i : ℕ) => decide (¬ (98 : ℚ) / 100 ≤ (i : ℚ) / (N : ℚ)))
          = losSampleParams N := by
      apply List.filter_congr
      intro i _
      exact decide_eq_decide.mpr not_le
    rw [hfil, losSampleParams_cons]
    set f := requiredCamAltAt terr a b c d alt N with hf
    set rest := (List.map Nat.succ (List.range N)).filter
      (fun (i : ℕ) => decide ((i : ℚ) / (N : ℚ) < 98 / 100)) with hrest
    simp only [List.map_cons, List.foldl_cons]
    rw [show max (0 : ℚ) (f 0) = max 0 (max (f 0) (f 0)) by rw [max_self],
      foldl_max_max, foldl_max_max]
  · rw [calculateLineOfSightClearance_const]
    norm_num [calculateLineOfSightClearance, requiredCamAltAt, List.range_succ,
      List.foldl_append, List.foldl_cons, List.foldl_nil, max_def,
      minTerrainClearance]

/-- Witness for C2 (amended) at concrete inputs. -/
theorem calculateLineOfSightClearance_amended_witness :
    (1 ≤ 2) ∧
    (calculateLineOfSightClearance (fun _ _ => (0 : ℚ)) 0 0 0 1 5 2
        = max 0 (losClaimedMax (fun _ _ => (0 : ℚ)) 0 0 0 1 5 2) ∧
      85 ≤ calculateLineOfSightClearance (fun _ _ => (0 : ℚ)) 0 0 0 1 5 30) :=
  ⟨by norm_num,
   calculateLineOfSightClearance_amended (fun _ _ => 0) 0 0 0 1 5 2 (by norm_num)⟩

/-! ## C8: bearing smoothing has no wraparound discontinuity -/

/-- `a % 360` in JS differs from `a` by an integer multiple of 360. -/
theorem jsMod_360_bounds (a : ℚ) :
    -360 < jsMod a 360 ∧ jsMod a 360 < 360 ∧ (0 ≤ a → 0 ≤ jsMod a 360) := by
  have key : (360 : ℚ) * (a / 360) = a := by field_simp
  unfold jsMod qtrunc
  rcases le_or_lt 0 (a / 360) with h | h
  · rw [if_pos h]
    have h1 : ((⌊a / 360⌋ : ℤ) : ℚ) ≤ a / 360 := Int.floor_le _
    have h2 : a / 360 < (⌊a / 360⌋ : ℤ) + 1 := Int.lt_floor_add_one _
    refine ⟨by linarith, by linarith, fun _ => by linarith⟩
  · rw [if_neg (not_le.mpr h)]
    have h1 : a / 360 ≤ ((⌈a / 360⌉ : ℤ) : ℚ) := Int.le_ceil _
    have h2 : ((⌈a / 360⌉ : ℤ) : ℚ) < a / 360 + 1 := Int.ceil_lt_add_one _
    have ha : a < 0 := by
      by_contra hc
      exact absurd (div_nonneg (not_lt.mp hc) (by norm_num)) (not_le.mpr h)
    refine ⟨by linarith, by linarith, fun h0 => absurd ha (not_lt.mpr h0)⟩

/-- `normalizeBearing` lands in `[0, 360)`. -/
theorem normalizeBearing_bounds (b : ℚ) :
    0 ≤ normalizeBearing b ∧ normalizeBearing b < 360 := by
  unfold normalizeBearing
  obtain ⟨h1, h2, _⟩ := jsMod_360_bounds b
  obtain ⟨_, h2', h3'⟩ := jsMod_360_bounds (jsMod b 360 + 360)
  exact ⟨h3' (by linarith), h2'⟩

/-- `normalizeBearing b` differs from `b` by an integer multiple of 360. -/
theorem normalizeBearing_congr (b : ℚ) :
    ∃ k : ℤ, normalizeBearing b = b - 360 * k := by
  refine ⟨qtrunc (b / 360) + qtrunc ((jsMod b 360 + 360) / 360) - 1, ?_⟩
  have h1 : jsMod b 360 = b - 360 * (qtrunc (b / 360) : ℚ) := rfl
  have h2 : normalizeBearing b
      = jsMod b 360 + 360
        - 360 * (qtrunc ((jsMod b 360 + 360) / 360) : ℚ) := rfl
  rw [h2, h1]
  push_cast
  ring

/-- The shortest angular difference lies in `(-180, 180]`. -/
theorem bearingDifference_bounds (b1 b2 : ℚ) :
    -180 < bearingDifference b1 b2 ∧ bearingDifference b1 b2 ≤ 180 := by
  unfold bearingDifference
  obtain ⟨h0, h360⟩ := normalizeBearing_bounds (b2 - b1)
  by_cases h : 180 < normalizeBearing (b2 - b1)
  · rw [if_pos h]
    constructor <;> linarith
  · rw [if_neg h]
    push_neg at h
    constructor <;> linarith

/-- The shortest angular difference is congruent to the raw
difference modulo 360. -/
theorem bearingDifference_congr (b1 b2 : ℚ) :
    ∃ k : ℤ, bearingDifference b1 b2 = (b2 - b1) - 360 * k := by
  obtain ⟨k, hk⟩ := normalizeBearing_congr (b2 - b1)
  unfold bearingDifference
  by_cases h : 180 < normalizeBearing (b2 - b1)
  · rw [if_pos h]
    exact ⟨k + 1, by rw [hk]; push_cast; ring⟩
  · rw [if_neg h]
    exact ⟨k, hk⟩

/-- Two values of `(-180, 180]` that agree modulo 360 are equal. -/
theorem wrap_unique (u v : ℚ) (k : ℤ) (hu1 : -180 < u) (hu2 : u ≤ 180)
    (hv1 : -180 < v) (hv2 : v ≤ 180) (h : u - v = 360 * k) : u = v := by
  have hk1 : (k : ℚ) < 1 := by linarith
  have hk2 : (-1 : ℚ) < (k : ℚ) := by linarith
  have hk0 : k = 0 := by
    have i1 : k < 1 := by exact_mod_cast hk1
    have i2 : -1 < k := by exact_mod_cast hk2
    omega
  rw [hk0] at h
  push_cast at h
  linarith

/-- Stepping a bearing by `x ∈ (-180, 180]` and renormalising moves the
shortest angular difference by exactly `x`. -/
theorem bearingDifference_normalize_add (b x : ℚ)
    (hx1 : -180 < x) (hx2 : x ≤ 180) :
    bearingDifference b (normalizeBearing (b + x)) = x := by
  obtain ⟨k1, hk1⟩ := bearingDifference_congr b (normalizeBearing (b + x))
  obtain ⟨k2, hk2⟩ := normalizeBearing_congr (b + x)
  obtain ⟨hb1, hb2⟩ := bearingDifference_bounds b (normalizeBearing (b + x))
  have hdiff : bearingDifference b (normalizeBearing (b + x)) - x
      = 360 * ((-(k1 + k2) : ℤ) : ℚ) := by
    rw [hk1, hk2]
    push_cast
    ring
  exact wrap_unique _ _ (-(k1 + k2)) hb1 hb2 hx1 hx2 hdiff

/-- C8: after the first call, `smoothBearing` moves the stored bearing
by exactly `dynamicSmoothingFactor` times the shortest angular
difference (wrapped to ±180°) toward the (normalised) weighted circular
mean of the bearing history; consequently each step changes the
smoothed bearing, measured circularly, by at most
`180 * dynamicSmoothingFactor` — never a near-360° jump — for any
factor in the code's range `[0.015, 0.06]` (`max(0.015, 0.06/√speed)`
with speed ≥ 1). -/
theorem smoothBearing_continuity (factor : ℚ) (histSize : ℕ)
    (circMean : List ℚ → ℚ) (lb newBearing : ℚ) (bearingHistory : List ℚ)
    (hf0 : 3 / 200 ≤ factor) (hf1 : factor ≤ 3 / 50) :
    (smoothBearing factor histSize circMean (some lb) bearingHistory newBearing).1
      = normalizeBearing (lb +
          bearingDifference lb
            (normalizeBearing (circMean (trimHistory histSize (bearingHistory ++ [newBearing]))))
          * factor) ∧
    bearingDifference lb
        (smoothBearing factor histSize circMean (some lb) bearingHistory newBearing).1
      = factor * bearingDifference lb
          (normalizeBearing (circMean (trimHistory histSize (bearingHistory ++ [newBearing])))) ∧
    |bearingDifference lb
        (smoothBearing factor histSize circMean (some lb) bearingHistory newBearing).1|
      ≤ 180 * factor := by
  have hfpos : (0 : ℚ) < factor := lt_of_lt_of_le (by norm_num) hf0
  set avg := normalizeBearing
    (circMean (trimHistory histSize (bearingHistory ++ [newBearing]))) with havg
  set diff := bearingDifference lb avg with hdiffdef
  obtain ⟨hd1, hd2⟩ := bearingDifference_bounds lb avg
  have hx2 : diff * factor ≤ 180 := by
    have h1 : diff * factor ≤ 180 * factor :=
      mul_le_mul_of_nonneg_right hd2 (le_of_lt hfpos)
    nlinarith
  have hx1 : -180 < diff * factor := by
    have h1 : -180 * factor < diff * factor :=
      mul_lt_mul_of_pos_right hd1 hfpos
    nlinarith
  have hout :
      (smoothBearing factor histSize circMean (some lb) bearingHistory newBearing).1
        = normalizeBearing (lb + diff * factor) := rfl
  have hstep : bearingDifference lb
      (smoothBearing factor histSize circMean (some lb) bearingHistory newBearing).1
        = diff * factor := by
    rw [hout]
    exact bearingDifference_normalize_add lb (diff * factor) hx1 hx2
  refine ⟨hout, ?_, ?_⟩
  · rw [hstep, mul_comm]
  · rw [hstep, abs_mul, abs_of_pos hfpos]
    have habs : |diff| ≤ 180 := abs_le.mpr ⟨by linarith, hd2⟩
    exact mul_le_mul_of_nonneg_right habs (le_of_lt hfpos)

/-- Witness for C8: a step across the 359° → 1° boundary. -/
theorem smoothBearing_continuity_witness :
    ((3 : ℚ) / 200 ≤ 3 / 50 ∧ (3 : ℚ) / 50 ≤ 3 / 50) ∧
    ((smoothBearing (3 / 50) 20 (fun _ => 0) (some 359) [359] 1).1
        = normalizeBearing (359 +
            bearingDifference 359
              (normalizeBearing ((fun (_ : List ℚ) => (0 : ℚ)) (trimHistory 20 ([359] ++ [1]))))
            * (3 / 50)) ∧
      bearingDifference 359 (smoothBearing (3 / 50) 20 (fun _ => 0) (some 359) [359] 1).1
        = 3 / 50 * bearingDifference 359
            (normalizeBearing ((fun (_ : List ℚ) => (0 : ℚ)) (trimHistory 20 ([359] ++ [1])))) ∧
      |bearingDifference 359 (smoothBearing (3 / 50) 20 (fun _ => 0) (some 359) [359] 1).1|
        ≤ 180 * (3 / 50)) :=
  ⟨⟨by norm_num, by norm_num⟩,
   smoothBearing_continuity (3 / 50) 20 (fun _ => 0) 359 1 [359]
     (by norm_num) (by norm_num)⟩

/-! ## C3: segment lookup correctness -/

/-- One-step unfolding of the binary-search loop. -/
theorem findSegLoop_unfold (D : List ℚ) (d : ℚ) (left right : ℕ) :
    findSegLoop D d left right
      = if left + 1 < right then
          if D.getD ((left + right) / 2) 0 ≤ d then
            findSegLoop D d ((left + right) / 2) right
          else findSegLoop D d left ((left + right) / 2)
        else left := by
  rw [findSegLoop]
  rfl

/-- Loop invariant of the binary search: starting from a bracket
`D[left] ≤ d ≤ D[right]` with `left < right`, the loop returns an index
`i` with `left ≤ i`, `i + 1 ≤ right`, and `D[i] ≤ d ≤ D[i+1]`.  (No
monotonicity of `D` is needed: the bracket is maintained purely by the
comparisons the loop performs.) -/
theorem findSegLoop_spec (D : List ℚ) (d : ℚ) :
    ∀ (n left right : ℕ), right - left ≤ n → left < right →
      D.getD left 0 ≤ d → d ≤ D.getD right 0 →
      left ≤ findSegLoop D d left right ∧
      findSegLoop D d left right + 1 ≤ right ∧
      D.getD (findSegLoop D d left right) 0 ≤ d ∧
      d ≤ D.getD (findSegLoop D d left right + 1) 0 := by
  intro n
  induction n with
  | zero =>
    intro left right hn hlr _ _
    omega
  | succ n ih =>
    intro left right hn hlr hl hr
    rw [findSegLoop_unfold]
    by_cases h : left + 1 < right
    · rw [if_pos h]
      by_cases hc : D.getD ((left + right) / 2) 0 ≤ d
      · rw [if_pos hc]
        obtain ⟨i1, i2, i3, i4⟩ := ih ((left + right) / 2) right
          (by omega) (by omega) hc hr
        exact ⟨by omega, i2, i3, i4⟩
      · rw [if_neg hc]
        push_neg at hc
        obtain ⟨i1, i2, i3, i4⟩ := ih left ((left + right) / 2)
          (by omega) (by omega) hl (le_of_lt hc)
        exact ⟨i1, by omega, i3, i4⟩
    · rw [if_neg h]
      have hr1 : right = left + 1 := by omega
      rw [hr1] at hr
      exact ⟨le_refl _, by omega, hl, hr⟩

/-- `cumulAppend` produces one entry per remaining point. -/
theorem cumulAppend_length (dist : TrackPoint → TrackPoint → ℚ)
    (rest : List TrackPoint) : ∀ (prev : TrackPoint) (t : ℚ),
      (cumulAppend dist prev rest t).length = rest.length := by
  induction rest with
  | nil => intro prev t; rfl
  | cons p ps ih =>
    intro prev t
    simp [cumulAppend, ih]

/-- The cumulative-distance array has one entry per track point. -/
theorem cumulativeDistancesOf_length (dist : TrackPoint → TrackPoint → ℚ)
    (points : List TrackPoint) :
    (cumulativeDistancesOf dist points).length = points.length := by
  cases points with
  | nil => rfl
  | cons p rest => simp [cumulativeDistancesOf, cumulAppend_length]

/-- The last entry of the running-total list is the initial total plus
the sum of the remaining segment distances. -/
theorem cumulAppend_last (dist : TrackPoint → TrackPoint → ℚ)
    (rest : List TrackPoint) : ∀ (prev : TrackPoint) (t : ℚ),
      (t :: cumulAppend dist prev rest t).getD rest.length 0
        = t + sumFrom dist prev rest := by
  induction rest with
  | nil =>
    intro prev t
    simp [cumulAppend, sumFrom]
  | cons p ps ih =>
    intro prev t
    simp only [cumulAppend, sumFrom, List.length_cons, List.getD_cons_succ]
    rw [ih p (t + dist prev p)]
    ring

/-- Adjacent entries of the running-total list are non-decreasing when
every segment distance is nonnegative. -/
theorem cumulAppend_mono (dist : TrackPoint → TrackPoint → ℚ)
    (hdist : ∀ a b, 0 ≤ dist a b) (rest : List TrackPoint) :
    ∀ (prev : TrackPoint) (t : ℚ) (j : ℕ),
      j + 1 < (t :: cumulAppend dist prev rest t).length →
      (t :: cumulAppend dist prev rest t).getD j 0
        ≤ (t :: cumulAppend dist prev rest t).getD (j + 1) 0 := by
  induction rest with
  | nil =>
    intro prev t j hj
    simp [cumulAppend] at hj
  | cons p ps ih =>
    intro prev t j hj
    cases j with
    | zero =>
      have := hdist prev p
      simp only [cumulAppend, List.getD_cons_succ, List.getD_cons_zero]
      linarith
    | succ k =>
      simp only [cumulAppend, List.getD_cons_succ]
      apply ih p (t + dist prev p) k
      simp only [cumulAppend, List.length_cons, cumulAppend_length] at hj ⊢
      omega

/-- C3: for a track with at least 2 points and `0 ≤ d ≤ totalDistance`,
`findSegmentAtDistance` over the cumulative-distance array `D` built by
`initializeDistanceData` (which has `D[0] = 0`, non-decreasing adjacent
entries, `D[n-1] = totalDistance`, and one entry per point) returns an
index `i ≤ n − 2` with `D[i] ≤ d ≤ D[i+1]`. -/
theorem findSegmentAtDistance_correct (dist : TrackPoint → TrackPoint → ℚ)
    (points : List TrackPoint) (d : ℚ) (j : ℕ)
    (hlen : 2 ≤ points.length) (hdist : ∀ a b, 0 ≤ dist a b)
    (hd0 : 0 ≤ d) (hdT : d ≤ totalDistanceOf dist points)
    (hj : j + 1 < (cumulativeDistancesOf dist points).length) :
    (cumulativeDistancesOf dist points).length = points.length ∧
    (cumulativeDistancesOf dist points).getD 0 0 = 0 ∧
    (cumulativeDistancesOf dist points).getD j 0
      ≤ (cumulativeDistancesOf dist points).getD (j + 1) 0 ∧
    (cumulativeDistancesOf dist points).getD (points.length - 1) 0
      = totalDistanceOf dist points ∧
    findSegmentAtDistance (cumulativeDistancesOf dist points) d
      ≤ points.length - 2 ∧
    (cumulativeDistancesOf dist points).getD
        (findSegmentAtDistance (cumulativeDistancesOf dist points) d) 0 ≤ d ∧
    d ≤ (cumulativeDistancesOf dist points).getD
        (findSegmentAtDistance (cumulativeDistancesOf dist points) d + 1) 0 := by
  obtain ⟨p, rest, rfl⟩ : ∃ p rest, points = p :: rest := by
    cases points with
    | nil => simp at hlen
    | cons p rest => exact ⟨p, rest, rfl⟩
  have hD : cumulativeDistancesOf dist (p :: rest)
      = 0 :: cumulAppend dist p rest 0 := rfl
  have hlast : (cumulativeDistancesOf dist (p :: rest)).getD
      ((p :: rest).length - 1) 0 = totalDistanceOf dist (p :: rest) := by
    rw [hD]
    have : (p :: rest).length - 1 = rest.length := by simp
    rw [this]
    have := cumulAppend_last dist rest p 0
    rw [this]
    simp [totalDistanceOf]
  have hzero : (cumulativeDistancesOf dist (p :: rest)).getD 0 0 = 0 := by
    rw [hD]
    rfl
  have hlen' : (cumulativeDistancesOf dist (p :: rest)).length
      = (p :: rest).length := cumulativeDistancesOf_length dist _
  have hmono : (cumulativeDistancesOf dist (p :: rest)).getD j 0
      ≤ (cumulativeDistancesOf dist (p :: rest)).getD (j + 1) 0 := by
    rw [hD] at hj ⊢
    exact cumulAppend_mono dist hdist rest p 0 j hj
  have hrestlen : 1 ≤ rest.length := by
    simp only [List.length_cons] at hlen
    omega
  have hDlen : (cumulativeDistancesOf dist (p :: rest)).length
      = rest.length + 1 := by
    rw [hlen']
    simp
  have hseg := findSegLoop_spec (cumulativeDistancesOf dist (p :: rest)) d
    ((cumulativeDistancesOf dist (p :: rest)).length - 1) 0
    ((cumulativeDistancesOf dist (p :: rest)).length - 1)
    (by omega) (by omega)
    (by rw [hzero]; exact hd0)
    (by
      have : (cumulativeDistancesOf dist (p :: rest)).length - 1
          = (p :: rest).length - 1 := by rw [hlen']
      rw [this, hlast]
      exact hdT)
  obtain ⟨s1, s2, s3, s4⟩ := hseg
  refine ⟨hlen', hzero, hmono, hlast, ?_, s3, s4⟩
  unfold findSegmentAtDistance
  simp only [List.length_cons] at hDlen ⊢
  omega


/-- Witness for C3 at concrete inputs: a 3-point track with unit
segment distances, queried at distance 3/2. -/
theorem findSegmentAtDistance_correct_witness :
    (2 ≤ [(⟨0, 0, 0⟩ : TrackPoint), ⟨1, 0, 0⟩, ⟨2, 0, 0⟩].length ∧
      (0 : ℚ) ≤ 3 / 2 ∧
      (3 : ℚ) / 2 ≤ totalDistanceOf (fun _ _ => 1) [⟨0, 0, 0⟩, ⟨1, 0, 0⟩, ⟨2, 0, 0⟩] ∧
      0 + 1 < (cumulativeDistancesOf (fun _ _ => 1) [(⟨0, 0, 0⟩ : TrackPoint), ⟨1, 0, 0⟩, ⟨2, 0, 0⟩]).length) ∧
    ((cumulativeDistancesOf (fun _ _ => 1) [(⟨0, 0, 0⟩ : TrackPoint), ⟨1, 0, 0⟩, ⟨2, 0, 0⟩]).length
        = [(⟨0, 0, 0⟩ : TrackPoint), ⟨1, 0, 0⟩, ⟨2, 0, 0⟩].length ∧
      (cumulativeDistancesOf (fun _ _ => 1) [(⟨0, 0, 0⟩ : TrackPoint), ⟨1, 0, 0⟩, ⟨2, 0, 0⟩]).getD 0 0 = 0 ∧
      (cumulativeDistancesOf (fun _ _ => 1) [(⟨0, 0, 0⟩ : TrackPoint), ⟨1, 0, 0⟩, ⟨2, 0, 0⟩]).getD 0 0
        ≤ (cumulativeDistancesOf (fun _ _ => 1) [(⟨0, 0, 0⟩ : TrackPoint), ⟨1, 0, 0⟩, ⟨2, 0, 0⟩]).getD (0 + 1) 0 ∧
      (cumulativeDistancesOf (fun _ _ => 1) [(⟨0, 0, 0⟩ : TrackPoint), ⟨1, 0, 0⟩, ⟨2, 0, 0⟩]).getD
          ([(⟨0, 0, 0⟩ : TrackPoint), ⟨1, 0, 0⟩, ⟨2, 0, 0⟩].length - 1) 0
        = totalDistanceOf (fun _ _ => 1) [⟨0, 0, 0⟩, ⟨1, 0, 0⟩, ⟨2, 0, 0⟩] ∧
      findSegmentAtDistance
          (cumulativeDistancesOf (fun _ _ => 1) [(⟨0, 0, 0⟩ : TrackPoint), ⟨1, 0, 0⟩, ⟨2, 0, 0⟩]) (3 / 2)
        ≤ [(⟨0, 0, 0⟩ : TrackPoint), ⟨1, 0, 0⟩, ⟨2, 0, 0⟩].length - 2 ∧
      (cumulativeDistancesOf (fun _ _ => 1) [(⟨0, 0, 0⟩ : TrackPoint), ⟨1, 0, 0⟩, ⟨2, 0, 0⟩]).getD
          (findSegmentAtDistance
            (cumulativeDistancesOf (fun _ _ => 1) [(⟨0, 0, 0⟩ : TrackPoint), ⟨1, 0, 0⟩, ⟨2, 0, 0⟩]) (3 / 2)) 0
        ≤ 3 / 2 ∧
      (3 : ℚ) / 2
        ≤ (cumulativeDistancesOf (fun _ _ => 1) [(⟨0, 0, 0⟩ : TrackPoint), ⟨1, 0, 0⟩, ⟨2, 0, 0⟩]).getD
            (findSegmentAtDistance
              (cumulativeDistancesOf (fun _ _ => 1) [(⟨0, 0, 0⟩ : TrackPoint), ⟨1, 0, 0⟩, ⟨2, 0, 0⟩]) (3 / 2) + 1) 0) :=
  ⟨⟨by norm_num, by norm_num,
    by norm_num [totalDistanceOf, sumFrom],
    by norm_num [cumulativeDistancesOf, cumulAppend]⟩,
   findSegmentAtDistance_correct (fun _ _ => 1) [⟨0, 0, 0⟩, ⟨1, 0, 0⟩, ⟨2, 0, 0⟩] (3 / 2) 0
     (by norm_num) (fun _ _ => by norm_num) (by norm_num)
     (by norm_num [totalDistanceOf, sumFrom])
     (by norm_num [cumulativeDistancesOf, cumulAppend])⟩

end GPX3D
